import Mathlib

/-!
Shallow embedding of the tile-based lettuce-detection pipeline from
`lettuce_detecto.ipynb`: tiling (`crop_image_into_tiles`), tile-to-image box
remapping (`adjust_boxes`), threshold filtering and georeferenced export
(`create_georeferenced_shapefile` with `transform_polygon`), and the display
overlay (`display_original_image_with_boxes`).  Python floats are modelled as
exact rationals, PIL images by their pixel extent and mode string, and the
geopandas write by the list of features together with the declared CRS.
-/

namespace LettuceDetecto

/-- One upward step chain of Python `range(start, stop, step)` for a positive
step: the values start, start+step, ... that stay strictly below stop.  The
fuel argument bounds the recursion; `pyRange` supplies enough fuel. -/
def pyRangeUp : ℕ → ℤ → ℤ → ℤ → List ℤ
  | 0, _, _, _ => []
  | fuel + 1, start, stop, step =>
    if start < stop then start :: pyRangeUp fuel (start + step) stop step else []

/-- Downward counterpart of `pyRangeUp`, for a negative step: the values
start, start+step, ... that stay strictly above stop. -/
def pyRangeDown : ℕ → ℤ → ℤ → ℤ → List ℤ
  | 0, _, _, _ => []
  | fuel + 1, start, stop, step =>
    if stop < start then start :: pyRangeDown fuel (start + step) stop step else []

/-- Python `range(start, stop, step)`: raises ValueError when step is zero,
counts up for a positive step and down for a negative one.  The fuel handed
to the fueled workers bounds the number of produced elements because each
step moves by at least one. -/
def pyRange (start stop step : ℤ) : Except String (List ℤ) :=
  if step = 0 then Except.error "range() arg 3 must not be zero"
  else if 0 < step then Except.ok (pyRangeUp (stop - start).toNat start stop step)
  else Except.ok (pyRangeDown (start - stop).toNat start stop step)

/-- Crop box of one tile, in full-image pixel coordinates, as built by
`crop_image_into_tiles`: `(x, y, min (x + tile_size) W, min (y + tile_size) H)`. -/
structure TileBox where
  x0 : ℤ
  y0 : ℤ
  x1 : ℤ
  y1 : ℤ
  deriving DecidableEq

/-- One element of the `tiles_with_coordinates` list returned by
`crop_image_into_tiles`.  The saved tile image (the code stores a jpeg path)
is represented by its crop box; `tileX`, `tileY` are the recorded origin
offset `(x, y)`. -/
structure TileEntry where
  box : TileBox
  tileX : ℤ
  tileY : ℤ
  deriving DecidableEq

/-- Inner loop of `crop_image_into_tiles`: for each row offset `y` of `ys`,
iterate `x in range(0, img_width, tile_size)` and append one tile per `x`. -/
def crop_rows (imgWidth imgHeight : ℕ) (tileSize : ℤ) : List ℤ → Except String (List TileEntry)
  | [] => Except.ok []
  | y :: ys => do
    let xs ← pyRange 0 (imgWidth : ℤ) tileSize
    let rest ← crop_rows imgWidth imgHeight tileSize ys
    Except.ok (xs.map (fun x =>
      { box := { x0 := x, y0 := y,
                 x1 := min (x + tileSize) (imgWidth : ℤ),
                 y1 := min (y + tileSize) (imgHeight : ℤ) },
        tileX := x, tileY := y }) ++ rest)

/-- Embedding of `crop_image_into_tiles(image_path, tile_size, output_folder)`:
the image is represented by its size `imgWidth × imgHeight`; the nested
`for y in range(0, img_height, tile_size): for x in range(0, img_width,
tile_size)` loops append one `(tile, (x, y))` entry per grid cell, with the
crop box clipped at the raster boundary by `min`.  Filesystem side effects
(folder creation, jpeg saving) are outside the model. -/
def crop_image_into_tiles (imgWidth imgHeight : ℕ) (tileSize : ℤ) :
    Except String (List TileEntry) := do
  let ys ← pyRange 0 (imgHeight : ℤ) tileSize
  crop_rows imgWidth imgHeight tileSize ys

/-- Pixel-format handling inside the tile loop of `crop_image_into_tiles`:
PIL `Image.crop` keeps the source image mode, and the code converts the tile
to RGB exactly when its mode is RGBA, before saving. -/
def tile_mode (imageMode : String) : String :=
  if imageMode = "RGBA" then "RGB" else imageMode

/-- PIL `convert` from RGBA to RGB on one pixel: the alpha channel is
discarded and the colour channels pass through unchanged (no blending
against a background). -/
def rgba_to_rgb (r g b _alpha : ℕ) : ℕ × ℕ × ℕ := (r, g, b)

/-- Axis-aligned detection box `(x_min, y_min, x_max, y_max)`; the tensor
floats of the notebook are modelled as exact rationals. -/
structure Box where
  xMin : ℚ
  yMin : ℚ
  xMax : ℚ
  yMax : ℚ
  deriving DecidableEq

/-- Body of the `adjust_boxes` loop, and the inline remap of
`create_georeferenced_shapefile` (`x_min += tile_x` and so on): shift a
tile-local box by the origin offset of its tile. -/
def adjust_box (b : Box) (tileX tileY : ℚ) : Box :=
  { xMin := b.xMin + tileX, yMin := b.yMin + tileY,
    xMax := b.xMax + tileX, yMax := b.yMax + tileY }

/-- Embedding of `adjust_boxes(boxes, tile_x, tile_y)`: the loop appends
`[x_min + tile_x, y_min + tile_y, x_max + tile_x, y_max + tile_y]` for each
box, in order. -/
def adjust_boxes : List Box → ℚ → ℚ → List Box
  | [], _, _ => []
  | b :: bs, tileX, tileY => adjust_box b tileX tileY :: adjust_boxes bs tileX tileY

/-- One predicted object: the parallel `labels`, `boxes`, `scores` sequences
returned by `model.predict` are modelled already zipped into records. -/
structure Detection where
  label : String
  box : Box
  score : ℚ
  deriving DecidableEq

/-- One element of `all_predictions`: the detections of one tile together
with the tile origin offset `(tile_x, tile_y)`. -/
structure TilePrediction where
  dets : List Detection
  tileX : ℚ
  tileY : ℚ
  deriving DecidableEq

/-- Rasterio affine transform, row-major coefficients `(a, b, c, d, e, f)`;
`transform * (x, y) = (a*x + b*y + c, d*x + e*y + f)`. -/
structure Affine where
  a : ℚ
  b : ℚ
  c : ℚ
  d : ℚ
  e : ℚ
  f : ℚ
  deriving DecidableEq

/-- Application of a rasterio affine transform to a coordinate pair. -/
def Affine.app (T : Affine) (x y : ℚ) : ℚ × ℚ :=
  (T.a * x + T.b * y + T.c, T.d * x + T.e * y + T.f)

/-- Embedding of `transform_polygon(geometry, transform)`: the exterior ring
of `shapely.box(x_min, y_min, x_max, y_max)` starts at `(x_max, y_min)` and
its index-2 vertex is `(x_min, y_max)`; the code maps those two corners
through the affine transform and passes them positionally to `box` again. -/
def transform_polygon (geometry : Box) (transform : Affine) : Box :=
  let c0 := transform.app geometry.xMax geometry.yMin
  let c2 := transform.app geometry.xMin geometry.yMax
  { xMin := c0.1, yMin := c0.2, xMax := c2.1, yMax := c2.2 }

/-- One record of the `polygons` list built by
`create_georeferenced_shapefile`: geometry, label and score of a retained
detection. -/
structure Feature where
  label : String
  geometry : Box
  score : ℚ
  deriving DecidableEq

/-- Inner loop of `create_georeferenced_shapefile` for one tile: for each
detection, when `scores[i] >= threshold`, shift the box by the tile offset
and append a record `(geometry, label, score)`. -/
def collect_tile_polygons (threshold tileX tileY : ℚ) : List Detection → List Feature
  | [] => []
  | d :: ds =>
    if threshold ≤ d.score then
      { label := d.label, geometry := adjust_box d.box tileX tileY, score := d.score }
        :: collect_tile_polygons threshold tileX tileY ds
    else collect_tile_polygons threshold tileX tileY ds

/-- Outer collection loop of `create_georeferenced_shapefile` over
`all_predictions`, preserving tile order then within-tile order. -/
def collect_polygons : List TilePrediction → ℚ → List Feature
  | [], _ => []
  | p :: ps, threshold =>
    collect_tile_polygons threshold p.tileX p.tileY p.dets ++ collect_polygons ps threshold

/-- The written vector layer: its features and the CRS declared on it. -/
structure ShapefileOutput where
  features : List Feature
  crs : String
  deriving DecidableEq

/-- Embedding of `create_georeferenced_shapefile(all_predictions, image_path,
output_shapefile, threshold)`.  The raster is represented by the two values
the function reads from it, `src.crs` and `src.transform`.  Library
behaviour modelled from geopandas: the code constructs
`gpd.GeoDataFrame(polygons, crs="EPSG:32611")` with a hard-coded CRS — on an
empty record list this raises ValueError because the frame has no geometry
column to attach the CRS to; applying the affine transform through
`GeoSeries.apply` keeps that CRS on the geometry column, and the final
`set_crs(crs, inplace=True)` is called without allow_override, so it raises
ValueError whenever the CRS read from the source raster differs from the
hard-coded EPSG:32611.  Only when both checks pass does `to_file` write the
features, transformed by `transform_polygon`, with the declared CRS. -/
def create_georeferenced_shapefile (allPredictions : List TilePrediction)
    (srcCrs : String) (srcTransform : Affine) (threshold : ℚ) :
    Except String ShapefileOutput :=
  let polygons := collect_polygons allPredictions threshold
  if polygons = [] then
    Except.error "Assigning CRS to a GeoDataFrame without a geometry column is not supported"
  else if srcCrs ≠ "EPSG:32611" then
    Except.error "The GeoDataFrame already has a CRS which is not equal to the passed CRS"
  else
    Except.ok { features := polygons.map (fun p =>
                  { p with geometry := transform_polygon p.geometry srcTransform }),
                crs := srcCrs }

/-- Inner loop of `display_original_image_with_boxes` for one tile: the boxes
are first shifted by `adjust_boxes`, then a rectangle is drawn exactly when
`scores[i] > threshold` (strict comparison). -/
def display_boxes_tile (threshold tileX tileY : ℚ) : List Detection → List Box
  | [] => []
  | d :: ds =>
    if threshold < d.score then
      adjust_box d.box tileX tileY :: display_boxes_tile threshold tileX tileY ds
    else display_boxes_tile threshold tileX tileY ds

/-- Rectangles drawn by `display_original_image_with_boxes` over all tiles,
in tile order then within-tile order. -/
def display_boxes : List TilePrediction → ℚ → List Box
  | [], _ => []
  | p :: ps, threshold =>
    display_boxes_tile threshold p.tileX p.tileY p.dets ++ display_boxes ps threshold

/-- Spec-side description of one tile of the grid (spec section 4.1): row
index `i`, column index `j`, origin `(j*t, i*t)`, box clipped at the raster
boundary. -/
def specTile (imgWidth imgHeight t i j : ℕ) : TileEntry :=
  { box := { x0 := (j * t : ℕ), y0 := (i * t : ℕ),
             x1 := min ((j * t + t : ℕ) : ℤ) (imgWidth : ℤ),
             y1 := min ((i * t + t : ℕ) : ℤ) (imgHeight : ℤ) },
    tileX := (j * t : ℕ), tileY := (i * t : ℕ) }

/-- Spec-side description of the whole tile grid (spec section 4.1):
row-major enumeration with ceiling-division row and column counts.
Refinement target compared against `crop_image_into_tiles`. -/
def rowMajorTiles (imgWidth imgHeight t : ℕ) : List TileEntry :=
  ((List.range ((imgHeight + t - 1) / t)).map (fun i =>
    (List.range ((imgWidth + t - 1) / t)).map (fun j =>
      specTile imgWidth imgHeight t i j))).flatten

/-- Membership of a pixel in a tile crop box: the crop covers columns
`x0 ≤ px < x1` and rows `y0 ≤ py < y1`. -/
def inTileBox (px py : ℤ) (b : TileBox) : Prop :=
  b.x0 ≤ px ∧ px < b.x1 ∧ b.y0 ≤ py ∧ py < b.y1

instance (px py : ℤ) (b : TileBox) : Decidable (inTileBox px py b) :=
  inferInstanceAs (Decidable (_ ∧ _ ∧ _ ∧ _))

/-- Spec-side transform with the origin offset pre-incorporated into the
translation column, for a pure scale plus translation transform (spec
section 4.3): the offset scaled by the diagonal is added to `(c, f)`. -/
def spec_pre_translate (T : Affine) (offX offY : ℚ) : Affine :=
  { a := T.a, b := T.b, c := T.c + T.a * offX,
    d := T.d, e := T.e, f := T.f + T.e * offY }

/-! Helper lemmas about the fueled Python range and the tile grid. -/

lemma lt_ceil_div_iff {t : ℕ} (ht : 0 < t) (a n : ℕ) :
    a < (n + t - 1) / t ↔ a * t < n := by
  rw [Nat.lt_iff_add_one_le, Nat.le_div_iff_mul_le ht]
  have h1 : (a + 1) * t = a * t + t := by ring
  omega

lemma pyRangeUp_eq_range {t : ℕ} (ht : 0 < t) :
    ∀ (fuel a n : ℕ), n ≤ a * t + fuel →
      pyRangeUp fuel ((a * t : ℕ) : ℤ) (n : ℤ) (t : ℤ) =
        (List.range ((n + t - 1) / t - a)).map (fun i => (((a + i) * t : ℕ) : ℤ)) := by
  intro fuel
  induction fuel with
  | zero =>
    intro a n h
    have h2 : ¬ a < (n + t - 1) / t := by
      rw [lt_ceil_div_iff ht]; omega
    have h3 : (n + t - 1) / t - a = 0 := by omega
    simp [pyRangeUp, h3]
  | succ fuel ih =>
    intro a n h
    have hmul : (a + 1) * t = a * t + t := by ring
    by_cases hlt : a * t < n
    · have hltz : ((a * t : ℕ) : ℤ) < (n : ℤ) := by exact_mod_cast hlt
      have hcast : ((a * t : ℕ) : ℤ) + (t : ℤ) = (((a + 1) * t : ℕ) : ℤ) := by
        push_cast; ring
      have hD : a < (n + t - 1) / t := (lt_ceil_div_iff ht a n).mpr hlt
      have hsub : (n + t - 1) / t - a = ((n + t - 1) / t - (a + 1)) + 1 := by omega
      rw [pyRangeUp, if_pos hltz, hcast, ih (a + 1) n (by omega), hsub,
        List.range_succ_eq_map]
      simp only [List.map_cons, List.map_map, List.cons.injEq]
      refine ⟨by norm_num, List.map_congr_left ?_⟩
      intro i _
      have hidx : a + 1 + i = a + Nat.succ i := by omega
      simp [Function.comp_apply, hidx]
    · have hle : ¬ ((a * t : ℕ) : ℤ) < (n : ℤ) := by exact_mod_cast hlt
      have h2 : ¬ a < (n + t - 1) / t := by
        rw [lt_ceil_div_iff ht]; omega
      have h3 : (n + t - 1) / t - a = 0 := by omega
      rw [pyRangeUp, if_neg hle]
      simp [h3]

lemma pyRange_pos_eq {t : ℕ} (ht : 0 < t) (n : ℕ) :
    pyRange 0 (n : ℤ) (t : ℤ) =
      Except.ok ((List.range ((n + t - 1) / t)).map (fun i => ((i * t : ℕ) : ℤ))) := by
  have htz : ((t : ℤ) = 0) = False := by
    simp; omega
  have htpos : (0 : ℤ) < (t : ℤ) := by exact_mod_cast ht
  have h0 : ((0 * t : ℕ) : ℤ) = 0 := by simp
  have := pyRangeUp_eq_range ht n 0 n (by omega)
  rw [h0] at this
  unfold pyRange
  rw [if_neg (by simp; omega), if_pos htpos]
  have hfuel : ((n : ℤ) - 0).toNat = n := by simp
  rw [hfuel, this]
  simp

lemma crop_rows_ok {W H t : ℕ} (ht : 0 < t) : ∀ ys : List ℤ,
    crop_rows W H (t : ℤ) ys =
      Except.ok ((ys.map (fun y =>
        ((List.range ((W + t - 1) / t)).map (fun j => ((j * t : ℕ) : ℤ))).map (fun x =>
          ({ box := { x0 := x, y0 := y,
                      x1 := min (x + (t : ℤ)) (W : ℤ),
                      y1 := min (y + (t : ℤ)) (H : ℤ) },
             tileX := x, tileY := y } : TileEntry)))).flatten) := by
  intro ys
  induction ys with
  | nil => rfl
  | cons y ys ih =>
    rw [crop_rows, pyRange_pos_eq ht W]
    rw [show (do
        let xs ← (Except.ok ((List.range ((W + t - 1) / t)).map
          (fun j => ((j * t : ℕ) : ℤ))) : Except String (List ℤ))
        let rest ← crop_rows W H (t : ℤ) ys
        Except.ok (xs.map (fun x =>
          ({ box := { x0 := x, y0 := y,
                      x1 := min (x + (t : ℤ)) (W : ℤ),
                      y1 := min (y + (t : ℤ)) (H : ℤ) },
             tileX := x, tileY := y } : TileEntry)) ++ rest)) =
        (crop_rows W H (t : ℤ) ys).map
          (fun rest => ((List.range ((W + t - 1) / t)).map
            (fun j => ((j * t : ℕ) : ℤ))).map (fun x =>
            ({ box := { x0 := x, y0 := y,
                        x1 := min (x + (t : ℤ)) (W : ℤ),
                        y1 := min (y + (t : ℤ)) (H : ℤ) },
               tileX := x, tileY := y } : TileEntry)) ++ rest) from by
      cases crop_rows W H (t : ℤ) ys <;> rfl]
    rw [ih]
    rfl

theorem crop_eq_rowMajorTiles {W H t : ℕ} (ht : 0 < t) :
    crop_image_into_tiles W H (t : ℤ) = Except.ok (rowMajorTiles W H t) := by
  unfold crop_image_into_tiles
  rw [pyRange_pos_eq ht H]
  rw [show (do
      let ys ← (Except.ok ((List.range ((H + t - 1) / t)).map
        (fun i => ((i * t : ℕ) : ℤ))) : Except String (List ℤ))
      crop_rows W H (t : ℤ) ys) =
      crop_rows W H (t : ℤ) ((List.range ((H + t - 1) / t)).map
        (fun i => ((i * t : ℕ) : ℤ))) from rfl]
  rw [crop_rows_ok ht]
  unfold rowMajorTiles
  congr 1
  congr 1
  simp only [List.map_map]
  apply List.map_congr_left
  intro i _
  simp only [Function.comp_apply, List.map_map]
  apply List.map_congr_left
  intro j _
  simp only [Function.comp_apply, specTile]
  congr 2

lemma mem_rowMajorTiles {W H t : ℕ} {e : TileEntry} :
    e ∈ rowMajorTiles W H t ↔
      ∃ i j : ℕ, i < (H + t - 1) / t ∧ j < (W + t - 1) / t ∧ e = specTile W H t i j := by
  simp only [rowMajorTiles, List.mem_flatten, List.mem_map, List.mem_range]
  constructor
  · rintro ⟨l, ⟨i, hi, rfl⟩, hl⟩
    rcases List.mem_map.mp hl with ⟨j, hj, rfl⟩
    exact ⟨i, j, hi, List.mem_range.mp hj, rfl⟩
  · rintro ⟨i, j, hi, hj, rfl⟩
    exact ⟨_, ⟨i, hi, rfl⟩, List.mem_map.mpr ⟨j, List.mem_range.mpr hj, rfl⟩⟩

lemma div_slot_bounds {t : ℕ} (ht : 0 < t) (p : ℕ) :
    (p / t) * t ≤ p ∧ p < (p / t) * t + t := by
  have h1 := Nat.div_add_mod p t
  have h2 := Nat.mod_lt p ht
  have h3 : t * (p / t) = (p / t) * t := by ring
  omega

lemma div_slot_unique {t : ℕ} (j₁ j₂ p : ℕ)
    (h₁ : j₁ * t ≤ p ∧ p < j₁ * t + t) (h₂ : j₂ * t ≤ p ∧ p < j₂ * t + t) :
    j₁ = j₂ := by
  rcases lt_trichotomy j₁ j₂ with h | h | h
  · have hm := Nat.mul_le_mul (show j₁ + 1 ≤ j₂ by omega) (le_refl t)
    have he : (j₁ + 1) * t = j₁ * t + t := by ring
    omega
  · exact h
  · have hm := Nat.mul_le_mul (show j₂ + 1 ≤ j₁ by omega) (le_refl t)
    have he : (j₂ + 1) * t = j₂ * t + t := by ring
    omega

lemma specTile_inj_col {W H t : ℕ} (ht : 0 < t) {i j₁ j₂ : ℕ}
    (h : specTile W H t i j₁ = specTile W H t i j₂) : j₁ = j₂ := by
  have hx : ((j₁ * t : ℕ) : ℤ) = ((j₂ * t : ℕ) : ℤ) := congrArg (fun e => e.box.x0) h
  have hx2 : j₁ * t = j₂ * t := by exact_mod_cast hx
  exact Nat.eq_of_mul_eq_mul_right ht hx2

lemma specTile_row_eq {W H t : ℕ} (ht : 0 < t) {i₁ j₁ i₂ j₂ : ℕ}
    (h : specTile W H t i₁ j₁ = specTile W H t i₂ j₂) : i₁ = i₂ := by
  have hy : ((i₁ * t : ℕ) : ℤ) = ((i₂ * t : ℕ) : ℤ) := congrArg (fun e => e.box.y0) h
  have hy2 : i₁ * t = i₂ * t := by exact_mod_cast hy
  exact Nat.eq_of_mul_eq_mul_right ht hy2

lemma rowMajorTiles_nodup {W H t : ℕ} (ht : 0 < t) : (rowMajorTiles W H t).Nodup := by
  rw [rowMajorTiles, List.nodup_flatten]
  constructor
  · intro l hl
    rcases List.mem_map.mp hl with ⟨i, _, rfl⟩
    refine List.Nodup.map ?_ (List.nodup_range _)
    intro j₁ j₂ h
    exact specTile_inj_col ht h
  · rw [List.pairwise_map]
    refine (List.pairwise_lt_range _).imp ?_
    intro i₁ i₂ hlt e he₁ he₂
    rcases List.mem_map.mp he₁ with ⟨j₁, _, rfl⟩
    rcases List.mem_map.mp he₂ with ⟨j₂, _, heq⟩
    have := specTile_row_eq ht heq.symm
    omega

lemma inTileBox_specTile_mp {W H t i j : ℕ} {px py : ℤ}
    (h : inTileBox px py (specTile W H t i j).box) :
    ((j * t : ℕ) : ℤ) ≤ px ∧ px < ((j * t + t : ℕ) : ℤ) ∧ px < (W : ℤ) ∧
    ((i * t : ℕ) : ℤ) ≤ py ∧ py < ((i * t + t : ℕ) : ℤ) ∧ py < (H : ℤ) := by
  rcases h with ⟨h1, h2, h3, h4⟩
  rw [specTile] at h1 h2 h3 h4
  simp only [lt_min_iff] at h2 h4
  exact ⟨h1, h2.1, h2.2, h3, h4.1, h4.2⟩

lemma inTileBox_specTile_mpr {W H t i j pj pi : ℕ}
    (h1 : j * t ≤ pj) (h2 : pj < j * t + t) (h3 : pj < W)
    (h4 : i * t ≤ pi) (h5 : pi < i * t + t) (h6 : pi < H) :
    inTileBox (pj : ℤ) (pi : ℤ) (specTile W H t i j).box := by
  refine ⟨?_, ?_, ?_, ?_⟩ <;> simp only [specTile, lt_min_iff]
  · exact_mod_cast h1
  · exact ⟨by exact_mod_cast h2, by exact_mod_cast h3⟩
  · exact_mod_cast h4
  · exact ⟨by exact_mod_cast h5, by exact_mod_cast h6⟩

/-- C1: for an image of width W > 0 and height H > 0 and tile size t > 0,
`crop_image_into_tiles` succeeds, and its tile boxes cover exactly the pixel
extent [0,W) × [0,H) — every pixel of the extent lies in some tile box, no
tile box reaches outside the extent — while distinct tiles never share a
pixel and the tile list has no duplicates. -/
theorem tile_boxes_cover_and_disjoint (W H t : ℕ) (hW : 0 < W) (hH : 0 < H) (ht : 0 < t) :
    ∃ tiles, crop_image_into_tiles W H (t : ℤ) = Except.ok tiles ∧
      (∀ px py : ℤ, (0 ≤ px ∧ px < (W : ℤ) ∧ 0 ≤ py ∧ py < (H : ℤ)) ↔
        ∃ e ∈ tiles, inTileBox px py e.box) ∧
      (∀ e₁ ∈ tiles, ∀ e₂ ∈ tiles, ∀ px py : ℤ,
        inTileBox px py e₁.box → inTileBox px py e₂.box → e₁ = e₂) ∧
      tiles.Nodup := by
  refine ⟨rowMajorTiles W H t, crop_eq_rowMajorTiles ht, ?_, ?_, rowMajorTiles_nodup ht⟩
  · intro px py
    constructor
    · rintro ⟨hpx0, hpxW, hpy0, hpyH⟩
      obtain ⟨pj, rfl⟩ : ∃ pj : ℕ, px = (pj : ℤ) := ⟨px.toNat, (Int.toNat_of_nonneg hpx0).symm⟩
      obtain ⟨pi, rfl⟩ : ∃ pi : ℕ, py = (pi : ℤ) := ⟨py.toNat, (Int.toNat_of_nonneg hpy0).symm⟩
      have hpjW : pj < W := by exact_mod_cast hpxW
      have hpiH : pi < H := by exact_mod_cast hpyH
      have hbj := div_slot_bounds ht pj
      have hbi := div_slot_bounds ht pi
      refine ⟨specTile W H t (pi / t) (pj / t), ?_, ?_⟩
      · rw [mem_rowMajorTiles]
        exact ⟨pi / t, pj / t, (lt_ceil_div_iff ht _ _).mpr (by omega),
          (lt_ceil_div_iff ht _ _).mpr (by omega), rfl⟩
      · exact inTileBox_specTile_mpr hbj.1 hbj.2 hpjW hbi.1 hbi.2 hpiH
    · rintro ⟨e, he, hin⟩
      rw [mem_rowMajorTiles] at he
      obtain ⟨i, j, hi, hj, rfl⟩ := he
      have h := inTileBox_specTile_mp hin
      exact ⟨le_trans (Int.natCast_nonneg _) h.1, h.2.2.1,
        le_trans (Int.natCast_nonneg _) h.2.2.2.1, h.2.2.2.2.2⟩
  · intro e₁ he₁ e₂ he₂ px py hin₁ hin₂
    rw [mem_rowMajorTiles] at he₁ he₂
    obtain ⟨i₁, j₁, _, _, rfl⟩ := he₁
    obtain ⟨i₂, j₂, _, _, rfl⟩ := he₂
    have h₁ := inTileBox_specTile_mp hin₁
    have h₂ := inTileBox_specTile_mp hin₂
    have hpx0 : 0 ≤ px := le_trans (Int.natCast_nonneg _) h₁.1
    have hpy0 : 0 ≤ py := le_trans (Int.natCast_nonneg _) h₁.2.2.2.1
    obtain ⟨pn, rfl⟩ : ∃ pn : ℕ, px = (pn : ℤ) := ⟨px.toNat, (Int.toNat_of_nonneg hpx0).symm⟩
    obtain ⟨pm, rfl⟩ : ∃ pm : ℕ, py = (pm : ℤ) := ⟨py.toNat, (Int.toNat_of_nonneg hpy0).symm⟩
    have hj : j₁ = j₂ := div_slot_unique j₁ j₂ pn
      ⟨by exact_mod_cast h₁.1, by exact_mod_cast h₁.2.1⟩
      ⟨by exact_mod_cast h₂.1, by exact_mod_cast h₂.2.1⟩
    have hi : i₁ = i₂ := div_slot_unique i₁ i₂ pm
      ⟨by exact_mod_cast h₁.2.2.2.1, by exact_mod_cast h₁.2.2.2.2.1⟩
      ⟨by exact_mod_cast h₂.2.2.2.1, by exact_mod_cast h₂.2.2.2.2.1⟩
    rw [hi, hj]

/-- Witness for C1 at the concrete image size 2 × 2 with tile size 1. -/
theorem tile_boxes_cover_and_disjoint_witness :
    (0 < 2) ∧ (0 < 1) ∧
    ∃ tiles, crop_image_into_tiles 2 2 ((1 : ℕ) : ℤ) = Except.ok tiles ∧
      (∀ px py : ℤ, (0 ≤ px ∧ px < ((2 : ℕ) : ℤ) ∧ 0 ≤ py ∧ py < ((2 : ℕ) : ℤ)) ↔
        ∃ e ∈ tiles, inTileBox px py e.box) ∧
      (∀ e₁ ∈ tiles, ∀ e₂ ∈ tiles, ∀ px py : ℤ,
        inTileBox px py e₁.box → inTileBox px py e₂.box → e₁ = e₂) ∧
      tiles.Nodup :=
  ⟨by decide, by decide, tile_boxes_cover_and_disjoint 2 2 1 (by decide) (by decide) (by decide)⟩

/-- C5: `crop_image_into_tiles` enumerates tiles in deterministic row-major
order — for every positive tile size it returns exactly the row-major grid
with boxes `(ox, oy, min (ox+t) W, min (oy+t) H)` clipped at the raster
boundary — and on W=2000, H=1500, t=1024 it yields exactly the four claimed
tiles in that order. -/
theorem tile_enumeration_row_major :
    (∀ W H t : ℕ, 0 < t →
      crop_image_into_tiles W H (t : ℤ) = Except.ok (rowMajorTiles W H t)) ∧
    crop_image_into_tiles 2000 1500 1024 = Except.ok
      [⟨⟨0, 0, 1024, 1024⟩, 0, 0⟩, ⟨⟨1024, 0, 2000, 1024⟩, 1024, 0⟩,
       ⟨⟨0, 1024, 1024, 1500⟩, 0, 1024⟩, ⟨⟨1024, 1024, 2000, 1500⟩, 1024, 1024⟩] := by
  constructor
  · intro W H t ht
    exact crop_eq_rowMajorTiles ht
  · rfl

/-- Witness for C5 at the concrete size 5 × 3 with tile size 2. -/
theorem tile_enumeration_row_major_witness :
    (0 < 2) ∧ crop_image_into_tiles 5 3 ((2 : ℕ) : ℤ) = Except.ok (rowMajorTiles 5 3 2) :=
  ⟨by decide, tile_enumeration_row_major.1 5 3 2 (by decide)⟩

/-- C8 counterexample: with tile_size = -1 (which is ≤ 0) on a 10 × 10 image
the generation does not fail: Python `range(0, 10, -1)` is empty, so the
function returns an empty tile list successfully instead of raising. -/
theorem negative_tile_size_returns_ok :
    crop_image_into_tiles 10 10 (-1) = Except.ok ([] : List TileEntry) := rfl

/-- C8 amended: a tile size of exactly 0 makes the generation fail (Python
`range` rejects a zero step with ValueError), but a negative tile size does
not fail — the loops run zero times and an empty tile list is returned. -/
theorem tile_size_nonpositive_behaviour :
    (∀ W H : ℕ, crop_image_into_tiles W H 0 =
      Except.error "range() arg 3 must not be zero") ∧
    (∀ W H : ℕ, ∀ t : ℤ, t < 0 → crop_image_into_tiles W H t = Except.ok []) := by
  constructor
  · intro W H
    rfl
  · intro W H t htneg
    unfold crop_image_into_tiles pyRange
    rw [if_neg (by omega), if_neg (by omega)]
    have h0 : ((0 : ℤ) - (H : ℤ)).toNat = 0 := by omega
    rw [h0]
    rfl

/-- Witness for C8 amended at tile size -3 on a 7 × 9 image. -/
theorem tile_size_nonpositive_behaviour_witness :
    ((-3 : ℤ) < 0) ∧ crop_image_into_tiles 7 9 (-3) = Except.ok [] :=
  ⟨by decide, tile_size_nonpositive_behaviour.2 7 9 (-3) (by decide)⟩

/-- C9 counterexample: a tile cropped from a grayscale source image (PIL mode
L) keeps mode L — it is saved single-channel, not in 3-channel RGB; the code
only converts tiles whose mode is RGBA. -/
theorem grayscale_tile_not_rgb : tile_mode "L" = "L" ∧ tile_mode "L" ≠ "RGB" :=
  ⟨rfl, by decide⟩

/-- C9 amended: a tile cropped from an RGBA image is converted to RGB before
saving, with the alpha channel dropped rather than blended, and RGB tiles
stay RGB; tiles from a source in any other mode keep that mode and are not
converted to 3-channel RGB. -/
theorem tile_pixel_format :
    tile_mode "RGBA" = "RGB" ∧ tile_mode "RGB" = "RGB" ∧
    (∀ m : String, m ≠ "RGBA" → tile_mode m = m) ∧
    (∀ r g b alpha : ℕ, rgba_to_rgb r g b alpha = (r, g, b)) := by
  refine ⟨rfl, rfl, ?_, fun r g b alpha => rfl⟩
  intro m hm
  simp [tile_mode, hm]

/-- Witness for C9 amended at the concrete mode CMYK. -/
theorem tile_pixel_format_witness : tile_mode "CMYK" = "CMYK" :=
  tile_pixel_format.2.2.1 "CMYK" (by decide)

/-- C3: the tile-to-full-image remap adds the tile origin offset to each of
the four coordinates, exactly, for every box in the list and in order; in
particular offset (1024, 0) maps box (10, 20, 30, 40) to (1034, 20, 1054, 40). -/
theorem adjust_boxes_exact :
    (∀ (bs : List Box) (tileX tileY : ℚ),
      adjust_boxes bs tileX tileY = bs.map (fun b =>
        ({ xMin := b.xMin + tileX, yMin := b.yMin + tileY,
           xMax := b.xMax + tileX, yMax := b.yMax + tileY } : Box))) ∧
    (∀ (b : Box) (tileX tileY : ℚ), adjust_box b tileX tileY =
      { xMin := b.xMin + tileX, yMin := b.yMin + tileY,
        xMax := b.xMax + tileX, yMax := b.yMax + tileY }) ∧
    adjust_boxes [⟨10, 20, 30, 40⟩] 1024 0 = [⟨1034, 20, 1054, 40⟩] := by
  refine ⟨?_, fun b tileX tileY => rfl, by norm_num [adjust_boxes, adjust_box]⟩
  intro bs tileX tileY
  induction bs with
  | nil => rfl
  | cons b bs ih => simp [adjust_boxes, ih, adjust_box]

/-- C4: for a pure scale plus translation transform, shifting a box to
full-image coordinates and then applying the transform gives the same
polygon as applying, to the original tile-local box, the transform with the
origin offset pre-incorporated into its translation — exact equality over
the rationals. -/
theorem remap_then_transform_eq_pre_translate (T : Affine) (hb : T.b = 0) (hd : T.d = 0)
    (bx : Box) (offX offY : ℚ) :
    transform_polygon (adjust_box bx offX offY) T =
      transform_polygon bx (spec_pre_translate T offX offY) := by
  obtain ⟨a, b, c, d, e, f⟩ := T
  obtain ⟨x0, y0, x1, y1⟩ := bx
  have hb2 : b = 0 := hb
  have hd2 : d = 0 := hd
  subst hb2 hd2
  simp only [transform_polygon, adjust_box, spec_pre_translate, Affine.app, Box.mk.injEq]
  refine ⟨by ring, by ring, by ring, by ring⟩

/-- Witness for C4 at a concrete transform, box and offset. -/
theorem remap_then_transform_witness :
    ((⟨2, 0, 5, 0, 3, 7⟩ : Affine).b = 0) ∧ ((⟨2, 0, 5, 0, 3, 7⟩ : Affine).d = 0) ∧
    transform_polygon (adjust_box ⟨1, 2, 3, 4⟩ 10 20) ⟨2, 0, 5, 0, 3, 7⟩ =
      transform_polygon ⟨1, 2, 3, 4⟩ (spec_pre_translate ⟨2, 0, 5, 0, 3, 7⟩ 10 20) :=
  ⟨rfl, rfl, remap_then_transform_eq_pre_translate ⟨2, 0, 5, 0, 3, 7⟩ rfl rfl ⟨1, 2, 3, 4⟩ 10 20⟩

lemma collect_tile_eq_filter (threshold tileX tileY : ℚ) (ds : List Detection) :
    collect_tile_polygons threshold tileX tileY ds =
      (ds.filter (fun d => threshold ≤ d.score)).map (fun d =>
        ({ label := d.label, geometry := adjust_box d.box tileX tileY,
           score := d.score } : Feature)) := by
  induction ds with
  | nil => rfl
  | cons d ds ih =>
    by_cases h : threshold ≤ d.score
    · simp [collect_tile_polygons, List.filter_cons, h, ih]
    · simp [collect_tile_polygons, List.filter_cons, h, ih]

lemma display_tile_eq_filter (threshold tileX tileY : ℚ) (ds : List Detection) :
    display_boxes_tile threshold tileX tileY ds =
      (ds.filter (fun d => threshold < d.score)).map (fun d =>
        adjust_box d.box tileX tileY) := by
  induction ds with
  | nil => rfl
  | cons d ds ih =>
    by_cases h : threshold < d.score
    · simp [display_boxes_tile, List.filter_cons, h, ih]
    · simp [display_boxes_tile, List.filter_cons, h, ih]

/-- C2: the export retains exactly the detections whose score is greater than
or equal to the threshold — a score equal to the threshold is written
(inclusive boundary), a score strictly below is dropped — and for threshold
0.15 with scores 0.10, 0.15, 0.20 the written layer holds exactly the two
features with scores 0.15 and 0.20. -/
theorem export_threshold_inclusive :
    (∀ (threshold tileX tileY : ℚ) (ds : List Detection),
      collect_tile_polygons threshold tileX tileY ds =
        (ds.filter (fun d => threshold ≤ d.score)).map (fun d =>
          ({ label := d.label, geometry := adjust_box d.box tileX tileY,
             score := d.score } : Feature))) ∧
    (∀ (threshold tileX tileY : ℚ) (d : Detection), d.score = threshold →
      collect_tile_polygons threshold tileX tileY [d] =
        [{ label := d.label, geometry := adjust_box d.box tileX tileY, score := d.score }]) ∧
    (∀ (threshold tileX tileY : ℚ) (d : Detection), d.score < threshold →
      collect_tile_polygons threshold tileX tileY [d] = []) ∧
    (∃ out, create_georeferenced_shapefile
        [⟨[⟨"lettuce", ⟨0, 0, 1, 1⟩, 0.10⟩, ⟨"lettuce", ⟨0, 0, 1, 1⟩, 0.15⟩,
           ⟨"lettuce", ⟨0, 0, 1, 1⟩, 0.20⟩], 0, 0⟩]
        "EPSG:32611" ⟨1, 0, 0, 0, 1, 0⟩ 0.15 = Except.ok out ∧
      out.features.length = 2 ∧
      out.features.map (fun ft => ft.score) = [0.15, 0.20]) := by
  refine ⟨?_, ?_, ?_, ?_⟩
  · exact collect_tile_eq_filter
  · intro threshold tileX tileY d h
    simp [collect_tile_polygons, le_of_eq h.symm]
  · intro threshold tileX tileY d h
    simp [collect_tile_polygons, not_le.mpr h]
  · refine ⟨⟨[⟨"lettuce", ⟨1, 0, 0, 1⟩, 0.15⟩, ⟨"lettuce", ⟨1, 0, 0, 1⟩, 0.20⟩],
      "EPSG:32611"⟩, ?_, by norm_num, by norm_num⟩
    norm_num [create_georeferenced_shapefile, collect_polygons, collect_tile_polygons,
      adjust_box, transform_polygon, Affine.app]
    intro hcontra
    exact absurd hcontra (List.cons_ne_nil _ _)

/-- Witness for C2 at a concrete detection whose score equals the threshold. -/
theorem export_threshold_inclusive_witness :
    ((0.15 : ℚ) = 0.15) ∧
    collect_tile_polygons 0.15 0 0 [⟨"lettuce", ⟨0, 0, 1, 1⟩, 0.15⟩] =
      [{ label := "lettuce", geometry := adjust_box ⟨0, 0, 1, 1⟩ 0 0, score := 0.15 }] :=
  ⟨rfl, export_threshold_inclusive.2.1 0.15 0 0 ⟨"lettuce", ⟨0, 0, 1, 1⟩, 0.15⟩ rfl⟩

/-- C10: the shapefile export keeps a detection whose score equals the
threshold (`>=` comparison) while the display overlay omits it (`>`
comparison), so the two views of the same prediction disagree exactly at the
boundary; in general the export filters with ≤ and the display with <. -/
theorem display_export_boundary_disagreement :
    (∀ (threshold tileX tileY : ℚ) (ds : List Detection),
      display_boxes_tile threshold tileX tileY ds =
        (ds.filter (fun d => threshold < d.score)).map (fun d =>
          adjust_box d.box tileX tileY)) ∧
    (∀ (threshold tileX tileY : ℚ) (ds : List Detection),
      collect_tile_polygons threshold tileX tileY ds =
        (ds.filter (fun d => threshold ≤ d.score)).map (fun d =>
          ({ label := d.label, geometry := adjust_box d.box tileX tileY,
             score := d.score } : Feature))) ∧
    (∀ (threshold tileX tileY : ℚ) (d : Detection), d.score = threshold →
      collect_tile_polygons threshold tileX tileY [d] =
        [{ label := d.label, geometry := adjust_box d.box tileX tileY, score := d.score }] ∧
      display_boxes_tile threshold tileX tileY [d] = []) := by
  refine ⟨display_tile_eq_filter, collect_tile_eq_filter, ?_⟩
  intro threshold tileX tileY d h
  constructor
  · simp [collect_tile_polygons, le_of_eq h.symm]
  · simp [display_boxes_tile, h]

/-- Witness for C10 at threshold 0.15 and a detection scoring exactly 0.15. -/
theorem display_export_boundary_disagreement_witness :
    ((⟨"lettuce", ⟨0, 0, 1, 1⟩, 0.15⟩ : Detection).score = 0.15) ∧
    (collect_tile_polygons 0.15 0 0 [⟨"lettuce", ⟨0, 0, 1, 1⟩, 0.15⟩] =
      [{ label := "lettuce", geometry := adjust_box ⟨0, 0, 1, 1⟩ 0 0, score := 0.15 }] ∧
    display_boxes_tile 0.15 0 0 [⟨"lettuce", ⟨0, 0, 1, 1⟩, 0.15⟩] = []) :=
  ⟨rfl, display_export_boundary_disagreement.2.2 0.15 0 0 ⟨"lettuce", ⟨0, 0, 1, 1⟩, 0.15⟩ rfl⟩

/-- C6 counterexample: with no predictions at all (so no detection at or
above the threshold), the export does not produce a valid empty layer — it
raises the geopandas ValueError, because the GeoDataFrame built from an
empty record list has no geometry column to attach the CRS to. -/
theorem empty_detections_error :
    create_georeferenced_shapefile [] "EPSG:32611" ⟨1, 0, 0, 0, 1, 0⟩ 0.15 =
      Except.error
        "Assigning CRS to a GeoDataFrame without a geometry column is not supported" := rfl

/-- C6 amended: when no detection is at or above the threshold (empty
prediction list or all scores strictly below it), the export does not
produce a valid empty layer: the GeoDataFrame built from the empty record
list has no geometry column to carry a CRS, so the write raises and the
output file is left missing. -/
theorem empty_collection_behaviour :
    ∀ (preds : List TilePrediction) (crs : String) (T : Affine) (threshold : ℚ),
      collect_polygons preds threshold = [] →
        create_georeferenced_shapefile preds crs T threshold =
          Except.error
            "Assigning CRS to a GeoDataFrame without a geometry column is not supported" := by
  intro preds crs T threshold h
  simp [create_georeferenced_shapefile, h]

/-- Witness for C6 amended: all scores strictly below the threshold. -/
theorem empty_collection_behaviour_witness :
    (collect_polygons [⟨[⟨"lettuce", ⟨0, 0, 1, 1⟩, 0.10⟩], 0, 0⟩] 0.15 = []) ∧
    create_georeferenced_shapefile [⟨[⟨"lettuce", ⟨0, 0, 1, 1⟩, 0.10⟩], 0, 0⟩]
        "EPSG:32611" ⟨1, 0, 0, 0, 1, 0⟩ 0.15 =
      Except.error
        "Assigning CRS to a GeoDataFrame without a geometry column is not supported" := by
  have h : collect_polygons [⟨[⟨"lettuce", ⟨0, 0, 1, 1⟩, 0.10⟩], 0, 0⟩] 0.15 = [] := by
    norm_num [collect_polygons, collect_tile_polygons]
  exact ⟨h, empty_collection_behaviour _ "EPSG:32611" ⟨1, 0, 0, 0, 1, 0⟩ 0.15 h⟩

/-- C7 counterexample: for a source raster whose CRS is EPSG:4326 with one
retained detection, the export writes nothing at all — `set_crs`, called
without allow_override on a frame whose CRS was hard-coded to EPSG:32611 at
construction, raises ValueError — so no output layer carrying the source
CRS exists for this raster. -/
theorem crs_mismatch_no_output :
    create_georeferenced_shapefile [⟨[⟨"lettuce", ⟨0, 0, 1, 1⟩, 0.9⟩], 0, 0⟩]
        "EPSG:4326" ⟨1, 0, 0, 0, 1, 0⟩ 0.15 =
      Except.error
        "The GeoDataFrame already has a CRS which is not equal to the passed CRS" := by
  have h : collect_polygons [⟨[⟨"lettuce", ⟨0, 0, 1, 1⟩, 0.9⟩], 0, 0⟩] 0.15 ≠ [] := by
    norm_num [collect_polygons, collect_tile_polygons]
  simp only [create_georeferenced_shapefile]
  rw [if_neg h, if_pos (by decide)]

/-- C7 amended: whenever the export writes a layer, the CRS declared on it is
exactly the CRS read from the source raster — necessarily the EPSG:32611
that the GeoDataFrame constructor hard-codes — and the geometries come from
the pixel features purely through the affine transform, independent of the
CRS, so nothing is reprojected at write time; but for a source raster whose
CRS is not EPSG:32611, with at least one retained detection, `set_crs`
raises ValueError and no layer is written at all. -/
theorem output_crs_matches_source :
    (∀ (preds : List TilePrediction) (crs : String) (T : Affine) (threshold : ℚ)
        (out : ShapefileOutput),
      create_georeferenced_shapefile preds crs T threshold = Except.ok out →
        out.crs = crs ∧ crs = "EPSG:32611" ∧
        out.features = (collect_polygons preds threshold).map (fun p =>
          { p with geometry := transform_polygon p.geometry T })) ∧
    (∀ (preds : List TilePrediction) (crs : String) (T : Affine) (threshold : ℚ),
      crs ≠ "EPSG:32611" → collect_polygons preds threshold ≠ [] →
        create_georeferenced_shapefile preds crs T threshold =
          Except.error
            "The GeoDataFrame already has a CRS which is not equal to the passed CRS") := by
  constructor
  · intro preds crs T threshold out h
    by_cases hc : collect_polygons preds threshold = []
    · simp [create_georeferenced_shapefile, hc] at h
    · by_cases hcrs : crs = "EPSG:32611"
      · simp only [create_georeferenced_shapefile] at h
        rw [if_neg hc, if_neg (fun hn => hn hcrs)] at h
        rw [(Except.ok.inj h).symm]
        exact ⟨rfl, hcrs, rfl⟩
      · simp only [create_georeferenced_shapefile] at h
        rw [if_neg hc, if_pos hcrs] at h
        exact (Except.noConfusion h)
  · intro preds crs T threshold hcrs hne
    simp only [create_georeferenced_shapefile]
    rw [if_neg hne, if_pos hcrs]

/-- Witness for C7 amended, part 1 at a concrete one-detection input in
EPSG:32611. -/
theorem output_crs_matches_source_witness :
    (⟨[⟨"lettuce", ⟨1, 0, 0, 1⟩, 0.9⟩], "EPSG:32611"⟩ : ShapefileOutput).crs = "EPSG:32611" ∧
    ("EPSG:32611" : String) = "EPSG:32611" ∧
    (⟨[⟨"lettuce", ⟨1, 0, 0, 1⟩, 0.9⟩], "EPSG:32611"⟩ : ShapefileOutput).features =
      (collect_polygons [⟨[⟨"lettuce", ⟨0, 0, 1, 1⟩, 0.9⟩], 0, 0⟩] 0.15).map (fun p =>
        { p with geometry := transform_polygon p.geometry ⟨1, 0, 0, 0, 1, 0⟩ }) := by
  refine output_crs_matches_source.1 [⟨[⟨"lettuce", ⟨0, 0, 1, 1⟩, 0.9⟩], 0, 0⟩]
    "EPSG:32611" ⟨1, 0, 0, 0, 1, 0⟩ 0.15 ⟨[⟨"lettuce", ⟨1, 0, 0, 1⟩, 0.9⟩], "EPSG:32611"⟩ ?_
  norm_num [create_georeferenced_shapefile, collect_polygons, collect_tile_polygons,
    adjust_box, transform_polygon, Affine.app]

end LettuceDetecto
